import Mathlib

/-!
Verification development for the GAA Grind / Performance Pulse repository.

The definitions below are a shallow embedding of the core helpers of
`app.py`, `fitness_app_pro.py` and `fitness_app_pro_updated.py`:
username canonicalization, the `%Y-%m-%d` date parsing and ISO-week
computation used by the weekly aggregation, team/family/share code
generation and commit, family linking with color assignment, athlete
login with legacy migration, team joining, snapshot creation and
resolution, and the tolerant JSON document reader.

File-system state (JSON files in a directory) is modelled as association
lists or functions from file names to documents; the process-global
random number generator is modelled as an explicitly passed stream of
candidate values; "today" (`datetime.date.today()`) is passed explicitly.
-/

/-! ## Python string helpers -/

/-- Characters removed by Python's `str.strip()` (ASCII whitespace). -/
def isPySpace (c : Char) : Bool :=
  c == ' ' || c == '\t' || c == '\n' || c == '\r' || c.toNat == 11 || c.toNat == 12

/-- Model of Python `str.strip()` on a character list. -/
def pyStrip (l : List Char) : List Char :=
  ((l.dropWhile isPySpace).reverse.dropWhile isPySpace).reverse

/-- Model of Python `str.strip()` on strings. -/
def pyStripStr (s : String) : String :=
  String.mk (pyStrip s.data)

/-- Model of Python `str.upper()` (the app applies it to ASCII codes). -/
def pyUpper (s : String) : String :=
  String.mk (s.data.map Char.toUpper)

/-- The character whitelist of `clean_username` in `app.py`
(`abcdefghijklmnopqrstuvwxyzABCDEFGHIJKLMNOPQRSTUVWXYZ0123456789._-`). -/
def allowed_chars : List Char :=
  "abcdefghijklmnopqrstuvwxyzABCDEFGHIJKLMNOPQRSTUVWXYZ0123456789._-".data

/-- Character-list level of `clean_username`: strip, keep only
whitelisted characters, lowercase the result. -/
def clean_chars (l : List Char) : List Char :=
  ((pyStrip l).filter (fun c => allowed_chars.contains c)).map Char.toLower

/-- `clean_username` from `app.py`: strip, keep only whitelisted
characters, lowercase the result. -/
def clean_username (raw : String) : String :=
  String.mk (clean_chars raw.data)

/-! ## Calendar dates and the ISO week calendar

The apps call `datetime.datetime.strptime(s, "%Y-%m-%d").date()` and
`date.isocalendar()`; the following definitions model that part of the
Python standard library (proleptic Gregorian calendar). -/

/-- Gregorian leap-year test. -/
def isLeap (y : Nat) : Bool :=
  y % 4 == 0 && (y % 100 != 0 || y % 400 == 0)

/-- Number of days in a month. -/
def daysInMonth (y m : Nat) : Nat :=
  match m with
  | 2 => if isLeap y then 29 else 28
  | 4 => 30
  | 6 => 30
  | 9 => 30
  | 11 => 30
  | _ => 31

/-- A calendar date as produced by `datetime.date`. -/
structure Date where
  year : Nat
  month : Nat
  day : Nat
deriving DecidableEq, Repr

/-- Ordinal day within the year (Jan 1 = 1). -/
def dayOfYear (y m d : Nat) : Nat :=
  d
    + (match m with
      | 1 => 0
      | 2 => 31
      | 3 => 59
      | 4 => 90
      | 5 => 120
      | 6 => 151
      | 7 => 181
      | 8 => 212
      | 9 => 243
      | 10 => 273
      | 11 => 304
      | _ => 334)
    + (if 2 < m && isLeap y then 1 else 0)

/-- Rata Die day number (0001-01-01 has number 1). -/
def rataDie (y m d : Nat) : Nat :=
  (365 * (y - 1) + (y - 1) / 4 + (y - 1) / 400 + dayOfYear y m d) - (y - 1) / 100

/-- ISO day of week, Monday = 1 .. Sunday = 7. -/
def dowMon (dt : Date) : Nat :=
  (rataDie dt.year dt.month dt.day + 6) % 7 + 1

/-- Number of ISO weeks (52 or 53) in an ISO year. -/
def isoWeeksInYear (y : Nat) : Nat :=
  let jan1 := dowMon ⟨y, 1, 1⟩
  if jan1 == 4 || (isLeap y && jan1 == 3) then 53 else 52

/-- Model of Python `date.isocalendar()` restricted to its first two
components: the (ISO year, ISO week number) pair. -/
def isocalendar (dt : Date) : Nat × Nat :=
  let dow := dowMon dt
  let doy := dayOfYear dt.year dt.month dt.day
  let w := (doy + 10 - dow) / 7
  if w == 0 then (dt.year - 1, isoWeeksInYear (dt.year - 1))
  else if w > isoWeeksInYear dt.year then (dt.year + 1, 1)
  else (dt.year, w)

/-- The ISO week number `d.isocalendar()[1]` used by the apps. -/
def isoWeek (dt : Date) : Nat :=
  (isocalendar dt).2

/-! ## Date-string parsing (`strptime(s, "%Y-%m-%d")`) -/

/-- Split a character list at `'-'` separators. -/
def splitDash : List Char → List Char → List (List Char)
  | [], acc => [acc.reverse]
  | c :: rest, acc =>
    if c == '-' then acc.reverse :: splitDash rest []
    else splitDash rest (c :: acc)

/-- Decimal digit test. -/
def allDigits (l : List Char) : Bool :=
  l.all (fun c => '0' ≤ c && c ≤ '9')

/-- Value of a decimal digit string. -/
def digitsToNat (l : List Char) : Nat :=
  l.foldl (fun a c => a * 10 + (c.toNat - 48)) 0

/-- Model of `datetime.datetime.strptime(s, "%Y-%m-%d").date()`: a
four-digit year, one- or two-digit month and day, and the resulting
triple must be a valid calendar date (year at least 1); every other
string fails to parse (in Python: raises, which the callers catch). -/
def parse_date (s : String) : Option Date :=
  match splitDash s.data [] with
  | [ys, ms, ds] =>
    if ys.length == 4 && allDigits ys
        && decide (1 ≤ ms.length) && ms.length ≤ 2 && allDigits ms
        && decide (1 ≤ ds.length) && ds.length ≤ 2 && allDigits ds then
      let y := digitsToNat ys
      let m := digitsToNat ms
      let d := digitsToNat ds
      if decide (1 ≤ y) && decide (1 ≤ m) && m ≤ 12 && decide (1 ≤ d) && d ≤ daysInMonth y m then
        some ⟨y, m, d⟩
      else none
    else none
  | _ => none

/-! ## Metric records and weekly totals -/

/-- A dated metric record (`{"date": ..., "minutes": ...}`). -/
structure Entry where
  date : String
  minutes : Int
deriving DecidableEq, Repr

/-- The filter used by `compute_weekly_summary` / `compute_weekly_total`:
the record's date parses and has the same ISO week *number* and the same
*calendar* year as the reference date. -/
def in_code_week (today : Date) (e : Entry) : Bool :=
  match parse_date e.date with
  | some d => isoWeek d == isoWeek today && d.year == today.year
  | none => false

/-- `compute_weekly_summary` from `app.py` (the reference date is
`datetime.date.today()`, passed explicitly here): accumulate the
`minutes` of every entry whose date parses and matches the current ISO
week number and calendar year; entries that fail to parse are skipped. -/
def compute_weekly_summary (entries : List Entry) (today : Date) : Int :=
  entries.foldl
    (fun total e =>
      match parse_date e.date with
      | some d =>
        if isoWeek d == isoWeek today && d.year == today.year then total + e.minutes
        else total
      | none => total)
    0

/-- `compute_weekly_total` from `fitness_app_pro_updated.py`; with
integer-valued `minutes` its behaviour coincides with
`compute_weekly_summary`. -/
def compute_weekly_total (entries : List Entry) (today : Date) : Int :=
  entries.foldl
    (fun total e =>
      match parse_date e.date with
      | some d =>
        if d.year == today.year && isoWeek d == isoWeek today then total + e.minutes
        else total
      | none => total)
    0

/-- Modelled from the spec's words (for comparison only): the weekly
total as the sum over records falling in the same (ISO year, ISO week)
pair as the reference date. -/
def weekly_total_iso_spec (entries : List Entry) (today : Date) : Int :=
  ((entries.filter (fun e =>
      match parse_date e.date with
      | some d => isocalendar d == isocalendar today
      | none => false)).map (fun e => e.minutes)).sum

/-! ## Code generation with collision retry

`generate_team_code` / `code6` / `code8` draw random uppercase
alphanumeric codes.  The process RNG is modelled as a stream
`cands : Nat → String` of successive draws; the `while code in store`
retry loops of team and family creation are modelled with explicit
fuel (the Python loop is structurally unbounded). -/

/-- The retry loop `code = gen(); while code in existing: code = gen()`.
Starting at stream position `i`, returns the first candidate not in
`existing` together with the next unused stream position, or `none`
when the fuel runs out. -/
def gen_loop (cands : Nat → String) (existing : List String) : Nat → Nat → Option (String × Nat)
  | i, Nat.succ fuel =>
    if existing.contains (cands i) then gen_loop cands existing (i + 1) fuel
    else some (cands i, i + 1)
  | _, 0 => none

/-- Commit `k` generated codes in sequence against a growing store of
codes, as team creation (`teams[code] = {...}; save_teams`) and family
creation do. -/
def commit_codes (cands : Nat → String) (fuel : Nat) : List String → Nat → Nat → Option (List String)
  | existing, _, 0 => some existing
  | existing, i, Nat.succ k =>
    match gen_loop cands existing i fuel with
    | none => none
    | some (c, j) => commit_codes cands fuel (existing ++ [c]) j k

/-! ## Families and child colors (`app.py`) -/

/-- The fixed color palette `ATHLETE_COLORS` of `app.py` (size 10). -/
def ATHLETE_COLORS : List String :=
  ["#2E8B57", "#1E90FF", "#FF6347", "#FFD700", "#8A2BE2",
   "#00CED1", "#FF69B4", "#A0522D", "#2F4F4F", "#7FFF00"]

/-- A family child entry `{"username": ..., "color": ...}`. -/
structure Child where
  username : String
  color : String
deriving DecidableEq, Repr

/-- A family document `{"family_name": ..., "children": [...]}`. -/
structure Family where
  family_name : String
  children : List Child
deriving DecidableEq, Repr

/-- The families store `families.json`: a JSON object, modelled as an
insertion-ordered association list from code to family. -/
abbrev FamStore : Type := List (String × Family)

/-- Dictionary assignment `families[code] = fam` (replace or append). -/
def insertFam : FamStore → String → Family → FamStore
  | [], c, f => [(c, f)]
  | (c₀, f₀) :: rest, c, f =>
    if c₀ == c then (c, f) :: rest else (c₀, f₀) :: insertFam rest c f

/-- Dictionary lookup `families.get(code)`. -/
def lookupFam (st : FamStore) (c : String) : Option Family :=
  List.lookup c st

/-- `add_child_to_family` from `app.py`: strip the code (empty codes
fail), canonicalize the username, fetch the family (defaulting to a
fresh `{"family_name": "Family", "children": []}` when the code is
absent), return success if the child is already present, otherwise
append the child with the first palette color not used by a sibling —
falling back to a random palette pick, modelled by the explicit `rand`
argument, when every palette color is used — and store the family. -/
def add_child_to_family (rand : String) (families : FamStore) (code username : String) : Bool × FamStore :=
  let code := pyStripStr code
  if code == "" then (false, families)
  else
    let username := clean_username username
    let fam := (lookupFam families code).getD { family_name := "Family", children := [] }
    if fam.children.any (fun c => c.username == username) then
      (true, insertFam families code fam)
    else
      let used := (fam.children.filter (fun c => c.color != "")).map (fun c => c.color)
      let col := (ATHLETE_COLORS.find? (fun c => !(used.contains c))).getD rand
      (true, insertFam families code
        { fam with children := fam.children ++ [{ username := username, color := col }] })

/-- Link a list of athletes to the same family code in sequence,
threading the RNG stream `rnd` through the random-fallback argument. -/
def link_children (rnd : Nat → String) (code : String) : List String → Nat → FamStore → FamStore
  | [], _, st => st
  | u :: us, i, st => link_children rnd code us (i + 1) (add_child_to_family (rnd i) st code u).2

/-! ## Athlete profiles and login (`app.py`) -/

/-- An athlete profile document; `username` is optional because legacy
documents may lack it (`data.get("pin")`, `data["username"] = ...`). -/
structure Profile where
  pin : String
  username : Option String
  training_log : List Entry
deriving DecidableEq, Repr

/-- The athletes directory, as a map from file name to document. -/
abbrev AthStore : Type := String → Option Profile

/-- Write a document at a file name (`save_json`). -/
def putAth (store : AthStore) (k : String) (v : Profile) : AthStore :=
  fun k₀ => if k₀ == k then some v else store k₀

/-- The file-selection logic of `check_athlete_login`: the canonical
file `clean_username(u) + ".json"`, unless it does not exist and the
legacy file `u.strip() + ".json"` does. -/
def resolve_file (store : AthStore) (u : String) : String :=
  let file := clean_username u ++ ".json"
  let legacy := pyStripStr u ++ ".json"
  if (store file).isNone && (store legacy).isSome then legacy else file

/-- `check_athlete_login` from `app.py`: resolve the file (with the
legacy fallback), fail with no document if neither exists, compare the
stored PIN, and on a successful legacy login migrate the document to
the canonical file with its `username` field set to the canonical key.
Returns (ok, returned document, updated athlete directory). -/
def check_athlete_login (store : AthStore) (u p : String) : Bool × Option Profile × AthStore :=
  let file := resolve_file store u
  match store file with
  | none => (false, none, store)
  | some data =>
    let ok := data.pin == p
    if ok && (file == pyStripStr u ++ ".json") then
      let migrated := { data with username := some (clean_username u) }
      (true, some migrated, putAth store (clean_username u ++ ".json") migrated)
    else (ok, some data, store)

/-! ## Team joining (`app.py`, Teams & Coach Codes handler) -/

/-- Outcome of the Join Team handler: `st.error("Team code not
found.")`, `st.success(...)`, or `st.info("Already joined...")`. -/
inductive JoinResult where
  | notFound
  | joined
  | alreadyJoined
deriving DecidableEq, Repr

/-- The Join Team handler of `app.py`: uppercase the stripped input,
error if the code is not a key of the teams store, append it to the
athlete's team list only if not already present. -/
def join_team (teamCodes : List String) (myTeams : List String) (raw : String) : JoinResult × List String :=
  let code := pyUpper (pyStripStr raw)
  if !(teamCodes.contains code) then (.notFound, myTeams)
  else if !(myTeams.contains code) then (.joined, myTeams ++ [code])
  else (.alreadyJoined, myTeams)

/-! ## Weekly share snapshots (`fitness_app_pro_updated.py`) -/

/-- A share snapshot document as built by the Share Weekly Snapshot
handler. -/
structure Snapshot where
  username : String
  generated_at : String
  share_code : String
  training_log : List Entry
  gym_sessions : List Entry
  homework_log : List Entry
  weekly_training_minutes : Int
  weekly_gym_minutes : Int
  weekly_study_minutes : Int
deriving DecidableEq, Repr

/-- Build the snapshot dictionary: identity, timestamp, the fresh share
code, verbatim copies of the logs, and the weekly totals computed at
creation time. -/
def mk_snapshot (u now code : String) (tlog gyms hw : List Entry) (today : Date) : Snapshot :=
  { username := u
    generated_at := now
    share_code := code
    training_log := tlog
    gym_sessions := gyms
    homework_log := hw
    weekly_training_minutes := compute_weekly_total tlog today
    weekly_gym_minutes := compute_weekly_total gyms today
    weekly_study_minutes := compute_weekly_total hw today }

/-- The shared directory `data/shared`, as an insertion-ordered
association list from file name to snapshot document (the list order
models the `os.listdir` enumeration order used at resolution). -/
abbrev SharedStore : Type := List (String × Snapshot)

/-- Write a file into the shared directory (overwrite on name clash). -/
def putShared : SharedStore → String → Snapshot → SharedStore
  | [], k, v => [(k, v)]
  | (k₀, v₀) :: rest, k, v =>
    if k₀ == k then (k, v) :: rest else (k₀, v₀) :: putShared rest k v

/-- Snapshot creation: `save_json` of the snapshot under the file name
`f"{u}_snapshot_{share_code}.json"` in the shared directory. -/
def create_snapshot (store : SharedStore) (snap : Snapshot) : SharedStore :=
  putShared store (snap.username ++ "_snapshot_" ++ snap.share_code ++ ".json") snap

/-- The Load Athlete Snapshot handler: an empty (stripped) code is
rejected, otherwise scan the shared directory and return the first
snapshot whose stored `share_code` equals the stripped input. -/
def resolve_snapshot (store : SharedStore) (code : String) : Option Snapshot :=
  if pyStripStr code == "" then none
  else (store.find? (fun p => p.2.share_code == pyStripStr code)).map (fun p => p.2)

/-! ## The tolerant document reader (`load_json`) -/

/-- Python exceptions relevant to `load_json`. -/
inductive PyExc where
  | jsonDecodeError
  | fileNotFound
deriving DecidableEq, Repr

/-- `load_json` from `app.py`, with the exception flow made explicit:
the `try` body returns the default when the file does not exist,
otherwise opens and decodes it (a decode failure raises
`json.JSONDecodeError`); the `except json.JSONDecodeError` handler
turns that exception into the default.  The file system is a map from
path to raw content and `decode` models `json.load`. -/
def load_json (decode : String → Option Profile) (fs : String → Option String)
    (path : String) (default : Profile) : Except PyExc Profile :=
  let body : Except PyExc Profile :=
    if (fs path).isNone then .ok default
    else
      match fs path with
      | none => .error .fileNotFound
      | some raw =>
        match decode raw with
        | some doc => .ok doc
        | none => .error .jsonDecodeError
  match body with
  | .error .jsonDecodeError => .ok default
  | r => r

/-! ## Helper lemmas -/

/-- The lowercase character set `[a-z0-9._-]` of canonical keys. -/
def lower_allowed : List Char :=
  "abcdefghijklmnopqrstuvwxyz0123456789._-".data

lemma dropWhile_eq_self_of_forall {p : Char → Bool} :
    ∀ l : List Char, (∀ c ∈ l, p c = false) → l.dropWhile p = l
  | [], _ => rfl
  | c :: l, h => by simp [List.dropWhile_cons, h c (List.mem_cons_self c l)]

lemma map_eq_self_of_forall {f : Char → Char} :
    ∀ l : List Char, (∀ c ∈ l, f c = c) → l.map f = l
  | [], _ => rfl
  | c :: l, h => by
    simp only [List.map_cons, h c (List.mem_cons_self c l)]
    rw [map_eq_self_of_forall l (fun a ha => h a (List.mem_cons_of_mem c ha))]

lemma toLower_allowed_mem : ∀ c ∈ allowed_chars, Char.toLower c ∈ lower_allowed := by decide

lemma lower_allowed_fixed :
    ∀ c ∈ lower_allowed,
      isPySpace c = false ∧ allowed_chars.contains c = true ∧ Char.toLower c = c := by decide

lemma clean_chars_mem {l : List Char} {c : Char} (h : c ∈ clean_chars l) :
    c ∈ lower_allowed := by
  unfold clean_chars at h
  obtain ⟨a, ha, rfl⟩ := List.mem_map.mp h
  exact toLower_allowed_mem a (by simpa using (List.mem_filter.mp ha).2)

lemma pyStrip_eq_self_of_forall {l : List Char} (h : ∀ c ∈ l, isPySpace c = false) :
    pyStrip l = l := by
  unfold pyStrip
  rw [dropWhile_eq_self_of_forall l h]
  rw [dropWhile_eq_self_of_forall l.reverse (fun c hc => h c (List.mem_reverse.mp hc))]
  exact List.reverse_reverse l

lemma clean_chars_idem (l : List Char) : clean_chars (clean_chars l) = clean_chars l := by
  have hm : ∀ c ∈ clean_chars l, c ∈ lower_allowed := fun c hc => clean_chars_mem hc
  conv_lhs => rw [clean_chars]
  rw [pyStrip_eq_self_of_forall (fun c hc => (lower_allowed_fixed c (hm c hc)).1)]
  rw [List.filter_eq_self.mpr (fun c hc => (lower_allowed_fixed c (hm c hc)).2.1)]
  exact map_eq_self_of_forall _ (fun c hc => (lower_allowed_fixed c (hm c hc)).2.2)

/-! ## C5 -/

/-- C5: `clean_username` (the spec's `canonicalize`) is deterministic
(it is a function) and idempotent; its output consists only of
characters in `[a-z0-9._-]`; and `"Bob Smith"` and `"bobsmith"` both
canonicalize to `"bobsmith"`. -/
theorem clean_username_idempotent_charset :
    (∀ raw : String, clean_username (clean_username raw) = clean_username raw)
    ∧ (∀ (raw : String), ∀ c ∈ (clean_username raw).data, c ∈ lower_allowed)
    ∧ clean_username "Bob Smith" = "bobsmith"
    ∧ clean_username "bobsmith" = "bobsmith" := by
  refine ⟨fun raw => ?_, fun raw c hc => clean_chars_mem hc, by decide, by decide⟩
  show String.mk (clean_chars (String.mk (clean_chars raw.data)).data) = _
  rw [show (String.mk (clean_chars raw.data)).data = clean_chars raw.data from rfl,
    clean_chars_idem]
  rfl

/-- Instantiation of `clean_username_idempotent_charset` at concrete
inputs. -/
theorem clean_username_idempotent_charset_witness :
    clean_username (clean_username "Coach O'Neil 7") = clean_username "Coach O'Neil 7"
    ∧ 'b' ∈ lower_allowed
    ∧ clean_username "Bob Smith" = "bobsmith" := by
  refine ⟨clean_username_idempotent_charset.1 "Coach O'Neil 7", ?_, clean_username_idempotent_charset.2.2.1⟩
  exact clean_username_idempotent_charset.2.1 "Bob Smith" 'b' (by decide)

/-! ## C9 -/

/-- C9: the document-store read is total — `load_json` never raises:
when the file is missing it returns the caller-supplied default, when
the stored content fails to decode it returns the default (corruption
indistinguishable from absence), and when a well-formed document is
stored it returns it. -/
theorem load_json_total_default (decode : String → Option Profile)
    (fs : String → Option String) (path : String) (default : Profile) :
    load_json decode fs path default =
      .ok (match fs path with
        | none => default
        | some raw => (decode raw).getD default) := by
  unfold load_json
  cases hfs : fs path with
  | none => simp [hfs]
  | some raw =>
    cases hdec : decode raw with
    | none => simp [hfs, hdec]
    | some doc => simp [hfs, hdec]

/-- A sample athlete profile document used by concrete instantiations. -/
def bobProfile : Profile :=
  { pin := "1234", username := some "bob", training_log := [] }

/-- Instantiation of `load_json_total_default`: corrupt content and a
missing file both yield the default. -/
theorem load_json_total_default_witness :
    load_json (fun _ => none) (fun _ => some "corrupt") "athletes/bob.json" bobProfile = .ok bobProfile
    ∧ load_json (fun _ => some bobProfile) (fun _ => none) "athletes/bob.json"
        { pin := "", username := none, training_log := [] }
      = .ok { pin := "", username := none, training_log := [] } := by
  exact ⟨load_json_total_default (fun _ => none) (fun _ => some "corrupt") "athletes/bob.json" bobProfile,
    load_json_total_default (fun _ => some bobProfile) (fun _ => none) "athletes/bob.json"
      { pin := "", username := none, training_log := [] }⟩

/-! ## C6 -/

/-- C6: `join_team` fails with NotFound when the (normalized) code is
not a key of the teams store, leaving the membership unchanged; for a
known code, joining once adds exactly one occurrence of the code, and a
repeat call returns success ("already joined", not an error) without
adding a duplicate. -/
theorem join_team_notfound_idempotent (teamCodes myTeams : List String) (raw : String)
    (h₀ : myTeams.count (pyUpper (pyStripStr raw)) = 0) :
    (teamCodes.contains (pyUpper (pyStripStr raw)) = false →
      join_team teamCodes myTeams raw = (.notFound, myTeams))
    ∧ (teamCodes.contains (pyUpper (pyStripStr raw)) = true →
        join_team teamCodes myTeams raw = (.joined, myTeams ++ [pyUpper (pyStripStr raw)])
        ∧ (myTeams ++ [pyUpper (pyStripStr raw)]).count (pyUpper (pyStripStr raw)) = 1
        ∧ join_team teamCodes (myTeams ++ [pyUpper (pyStripStr raw)]) raw
            = (.alreadyJoined, myTeams ++ [pyUpper (pyStripStr raw)])) := by
  constructor
  · intro h
    have hn : (pyUpper (pyStripStr raw)) ∉ teamCodes := by simpa using h
    simp [join_team, hn]
  · intro h
    have hy : (pyUpper (pyStripStr raw)) ∈ teamCodes := by simpa using h
    have hnm : (pyUpper (pyStripStr raw)) ∉ myTeams := List.count_eq_zero.mp h₀
    refine ⟨by simp [join_team, hy, hnm], ?_, ?_⟩
    · simp [List.count_append, h₀]
    · have hmem : (pyUpper (pyStripStr raw)) ∈ myTeams ++ [pyUpper (pyStripStr raw)] := by simp
      simp [join_team, hy, hmem]

/-- Instantiation of `join_team_notfound_idempotent`: joining team
`"ABC123"` (entered as `" abc123 "`) once then again. -/
theorem join_team_notfound_idempotent_witness :
    join_team ["ABC123"] [] " abc123 " = (.joined, ["ABC123"])
    ∧ (["ABC123"] : List String).count "ABC123" = 1
    ∧ join_team ["ABC123"] ["ABC123"] " abc123 " = (.alreadyJoined, ["ABC123"])
    ∧ join_team [] [] " abc123 " = (.notFound, []) := by
  have h := join_team_notfound_idempotent ["ABC123"] [] " abc123 " (by decide)
  have h₂ := join_team_notfound_idempotent [] [] " abc123 " (by decide)
  obtain ⟨ha, hb, hc⟩ := h.2 (by decide)
  exact ⟨ha, hb, hc, h₂.1 (by decide)⟩

/-! ## C10 -/

/-- C10: when a profile document resolves (canonically or via the
legacy path) but its stored PIN differs from the supplied one,
`check_athlete_login` returns `ok = False` together with the complete
stored document (PIN and logs included) and leaves the store unchanged;
only when no document resolves at all does it return no document. -/
theorem login_wrong_pin_returns_profile (store : AthStore) (u p : String) (d : Profile)
    (h : store (resolve_file store u) = some d) (hne : d.pin ≠ p) :
    check_athlete_login store u p = (false, some d, store)
    ∧ ∀ (s₂ : AthStore) (u₂ p₂ : String), s₂ (resolve_file s₂ u₂) = none →
        check_athlete_login s₂ u₂ p₂ = (false, none, s₂) := by
  constructor
  · have hpin : (d.pin == p) = false := by simpa using hne
    simp [check_athlete_login, h, hpin]
  · intro s₂ u₂ p₂ h₂
    simp [check_athlete_login, h₂]

/-- A store holding only `bob.json` with PIN `"1234"`. -/
def bobStore : AthStore :=
  fun k => if k == "bob.json" then some bobProfile else none

/-- The empty athletes directory. -/
def emptyAthStore : AthStore := fun _ => none

/-- Instantiation of `login_wrong_pin_returns_profile`: logging in as
`bob` with the wrong PIN `"9999"` returns the stored document anyway. -/
theorem login_wrong_pin_returns_profile_witness :
    check_athlete_login bobStore "bob" "9999" = (false, some bobProfile, bobStore)
    ∧ check_athlete_login emptyAthStore "ghost" "1" = (false, none, emptyAthStore) := by
  have h := login_wrong_pin_returns_profile bobStore "bob" "9999" bobProfile (by decide) (by decide)
  exact ⟨h.1, h.2 emptyAthStore "ghost" "1" (by decide)⟩

/-! ## C4 -/

/-- C4: legacy migration.  If no document exists at the canonical file
but a legacy document sits under the raw trimmed name and its PIN
matches, `check_athlete_login` succeeds, writes the document (with its
username field set to the canonical key) under the canonical file, and
afterwards any spelling with the same canonical key and the same PIN
also succeeds and returns the same profile content. -/
theorem legacy_migration_idempotent (store : AthStore) (u u₂ p : String) (d : Profile)
    (h₁ : store (clean_username u ++ ".json") = none)
    (h₂ : store (pyStripStr u ++ ".json") = some d)
    (h₃ : d.pin = p)
    (h₄ : clean_username u₂ = clean_username u) :
    (check_athlete_login store u p).1 = true
    ∧ (check_athlete_login store u p).2.1 = some { d with username := some (clean_username u) }
    ∧ (check_athlete_login store u p).2.2 (clean_username u ++ ".json")
        = some { d with username := some (clean_username u) }
    ∧ (check_athlete_login (check_athlete_login store u p).2.2 u₂ p).1 = true
    ∧ (check_athlete_login (check_athlete_login store u p).2.2 u₂ p).2.1
        = some { d with username := some (clean_username u) } := by
  have hres : resolve_file store u = pyStripStr u ++ ".json" := by
    simp [resolve_file, h₁, h₂]
  have hpin : (d.pin == p) = true := by simp [h₃]
  have hc₁ : check_athlete_login store u p
      = (true, some { d with username := some (clean_username u) },
          putAth store (clean_username u ++ ".json") { d with username := some (clean_username u) }) := by
    simp [check_athlete_login, hres, h₂, hpin]
  have hget : putAth store (clean_username u ++ ".json") { d with username := some (clean_username u) }
      (clean_username u₂ ++ ".json") = some { d with username := some (clean_username u) } := by
    simp [putAth, h₄]
  have hres₂ : resolve_file
        (putAth store (clean_username u ++ ".json") { d with username := some (clean_username u) }) u₂
      = clean_username u₂ ++ ".json" := by
    simp [resolve_file, hget]
  rw [hc₁]
  refine ⟨rfl, rfl, by simp [putAth], ?_, ?_⟩ <;>
  · have hget₂ : putAth store (clean_username u ++ ".json") { d with username := some (clean_username u) }
        (clean_username u ++ ".json") = some { d with username := some (clean_username u) } := by
      simp [putAth]
    cases hcc : (clean_username u ++ ".json" == pyStripStr u₂ ++ ".json") with
    | true => simp [check_athlete_login, hres₂, h₄, hget₂, hcc, hpin]
    | false => simp [check_athlete_login, hres₂, h₄, hget₂, hcc, hpin]

/-- The legacy document `Bob Smith.json` (no username field). -/
def legacyBob : Profile :=
  { pin := "9999", username := none, training_log := [⟨"2025-01-06", 30⟩] }

/-- A store holding only the legacy file `Bob Smith.json`. -/
def legacyBobStore : AthStore :=
  fun k => if k == "Bob Smith.json" then some legacyBob else none

/-- Instantiation of `legacy_migration_idempotent` at the spec's
example: `authenticate("Bob Smith", "9999")` migrates, and
`authenticate("bobsmith", "9999")` then sees the same content. -/
theorem legacy_migration_idempotent_witness :
    (check_athlete_login legacyBobStore "Bob Smith" "9999").1 = true
    ∧ (check_athlete_login legacyBobStore "Bob Smith" "9999").2.1
        = some { legacyBob with username := some "bobsmith" }
    ∧ (check_athlete_login (check_athlete_login legacyBobStore "Bob Smith" "9999").2.2 "bobsmith" "9999").1 = true
    ∧ (check_athlete_login (check_athlete_login legacyBobStore "Bob Smith" "9999").2.2 "bobsmith" "9999").2.1
        = some { legacyBob with username := some "bobsmith" } := by
  have h := legacy_migration_idempotent legacyBobStore "Bob Smith" "bobsmith" "9999" legacyBob
    (by decide) (by decide) rfl (by decide)
  exact ⟨h.1, h.2.1, h.2.2.2.1, h.2.2.2.2⟩

/-! ## C1 -/

lemma weekly_summary_foldl_eq (today : Date) :
    ∀ (l : List Entry) (a : Int),
      l.foldl
        (fun total e =>
          match parse_date e.date with
          | some d =>
            if isoWeek d == isoWeek today && d.year == today.year then total + e.minutes
            else total
          | none => total)
        a
      = a + ((l.filter (in_code_week today)).map (fun e => e.minutes)).sum := by
  intro l
  induction l with
  | nil => intro a; simp
  | cons e l ih =>
    intro a
    simp only [List.foldl_cons, List.filter_cons]
    cases hpd : parse_date e.date with
    | none =>
      simp only [in_code_week, hpd]
      simpa using ih a
    | some d =>
      cases hw : (isoWeek d == isoWeek today && d.year == today.year) with
      | true =>
        simp only [in_code_week, hpd, hw, if_true]
        rw [ih (a + e.minutes)]
        simp [add_assoc]
      | false =>
        simp only [in_code_week, hpd, hw, if_false]
        simpa using ih a

lemma weekly_total_eq_summary (entries : List Entry) (today : Date) :
    compute_weekly_total entries today = compute_weekly_summary entries today := by
  unfold compute_weekly_total compute_weekly_summary
  congr 1
  funext total e
  cases parse_date e.date with
  | none => rfl
  | some d => simp only [Bool.and_comm]

/-- C1 (amended): `compute_weekly_summary` returns the sum of the
`minutes` field of exactly those records whose date string parses and
whose (calendar year, ISO week number) pair equals the reference
date's; unparsable dates are skipped without error; the result is
invariant under permutation of the records; and `compute_weekly_total`
of the updated app variant agrees with it. -/
theorem weekly_total_calendar_week (entries l₂ : List Entry) (today : Date)
    (hp : entries.Perm l₂) :
    compute_weekly_summary entries today
      = ((entries.filter (in_code_week today)).map (fun e => e.minutes)).sum
    ∧ compute_weekly_summary entries today = compute_weekly_summary l₂ today
    ∧ compute_weekly_total entries today = compute_weekly_summary entries today := by
  have h₁ : ∀ l : List Entry, compute_weekly_summary l today
      = ((l.filter (in_code_week today)).map (fun e => e.minutes)).sum := by
    intro l
    unfold compute_weekly_summary
    simpa using weekly_summary_foldl_eq today l 0
  refine ⟨h₁ entries, ?_, weekly_total_eq_summary entries today⟩
  rw [h₁ entries, h₁ l₂]
  exact (((hp.filter (in_code_week today)).map (fun e => e.minutes)).sum_eq)

/-- Instantiation of `weekly_total_calendar_week`: two in-week records
(30 and 45 minutes) plus one record dated `"not-a-date"` total 75, in
either input order. -/
theorem weekly_total_calendar_week_witness :
    compute_weekly_summary
        [⟨"2026-10-12", 30⟩, ⟨"not-a-date", 99⟩, ⟨"2026-10-13", 45⟩] ⟨2026, 10, 12⟩
      = (([⟨"2026-10-12", 30⟩, ⟨"not-a-date", 99⟩, ⟨"2026-10-13", 45⟩].filter
            (in_code_week ⟨2026, 10, 12⟩)).map (fun e => e.minutes)).sum
    ∧ compute_weekly_summary
        [⟨"2026-10-12", 30⟩, ⟨"not-a-date", 99⟩, ⟨"2026-10-13", 45⟩] ⟨2026, 10, 12⟩
      = compute_weekly_summary
          [⟨"2026-10-13", 45⟩, ⟨"2026-10-12", 30⟩, ⟨"not-a-date", 99⟩] ⟨2026, 10, 12⟩
    ∧ compute_weekly_total
        [⟨"2026-10-12", 30⟩, ⟨"not-a-date", 99⟩, ⟨"2026-10-13", 45⟩] ⟨2026, 10, 12⟩
      = compute_weekly_summary
          [⟨"2026-10-12", 30⟩, ⟨"not-a-date", 99⟩, ⟨"2026-10-13", 45⟩] ⟨2026, 10, 12⟩ :=
  weekly_total_calendar_week
    [⟨"2026-10-12", 30⟩, ⟨"not-a-date", 99⟩, ⟨"2026-10-13", 45⟩]
    [⟨"2026-10-13", 45⟩, ⟨"2026-10-12", 30⟩, ⟨"not-a-date", 99⟩]
    ⟨2026, 10, 12⟩ (by decide)

/-- Counterexample to C1 as stated: the record dated `2020-12-31` lies
in the same (ISO year, ISO week) pair `(2020, 53)` as the reference
date `2021-01-01`, so the claimed ISO-pair sum is 30, yet both weekly
total functions return 0 — the code compares the *calendar* year, not
the ISO year. -/
theorem weekly_total_iso_pair_counterexample :
    parse_date "2020-12-31" = some ⟨2020, 12, 31⟩
    ∧ isocalendar ⟨2020, 12, 31⟩ = isocalendar ⟨2021, 1, 1⟩
    ∧ isocalendar ⟨2020, 12, 31⟩ = (2020, 53)
    ∧ weekly_total_iso_spec [⟨"2020-12-31", 30⟩] ⟨2021, 1, 1⟩ = 30
    ∧ compute_weekly_summary [⟨"2020-12-31", 30⟩] ⟨2021, 1, 1⟩ = 0
    ∧ compute_weekly_total [⟨"2020-12-31", 30⟩] ⟨2021, 1, 1⟩ = 0 := by
  refine ⟨by decide, by decide, by decide, by decide, by decide, by decide⟩

/-! ## C2 -/

lemma gen_loop_not_mem (cands : Nat → String) (existing : List String) :
    ∀ (fuel i : Nat) (c : String) (j : Nat),
      gen_loop cands existing i fuel = some (c, j) → c ∉ existing := by
  intro fuel
  induction fuel with
  | zero => intro i c j h; simp [gen_loop] at h
  | succ n ih =>
    intro i c j h
    by_cases hc : existing.contains (cands i) = true
    · rw [gen_loop, if_pos hc] at h
      exact ih (i + 1) c j h
    · rw [gen_loop, if_neg hc] at h
      obtain ⟨rfl, rfl⟩ : cands i = c ∧ i + 1 = j := by
        constructor <;> injection h with h₁ <;> injection h₁
      simpa using hc

/-- C2 (amended): for the team-code and family-code namespaces — whose
creation handlers run `code = gen(); while code in store: code = gen()`
before committing — every sequence of generate-and-commit calls leaves
the stored codes pairwise distinct: each new code is regenerated until
it collides with no stored code.  (Share-snapshot codes are *not*
collision-checked; see the counterexample.) -/
theorem code_commit_nodup (cands : Nat → String) (fuel : Nat) :
    ∀ (k : Nat) (existing : List String) (i : Nat) (store : List String),
      existing.Nodup → commit_codes cands fuel existing i k = some store → store.Nodup := by
  intro k
  induction k with
  | zero =>
    intro existing i store hnd h
    rw [commit_codes] at h
    injection h with h
    exact h ▸ hnd
  | succ n ih =>
    intro existing i store hnd h
    rw [commit_codes] at h
    cases hg : gen_loop cands existing i fuel with
    | none => rw [hg] at h; exact absurd h (by simp)
    | some cj =>
      rw [hg] at h
      obtain ⟨c, j⟩ := cj
      have hfresh : c ∉ existing := gen_loop_not_mem cands existing fuel i c j hg
      have hnd₂ : (existing ++ [c]).Nodup := by
        rw [List.nodup_append]
        exact ⟨hnd, List.nodup_singleton c, List.disjoint_singleton.mpr hfresh⟩
      exact ih (existing ++ [c]) j store hnd₂ h

/-- An RNG stream drawing `"AAAAAA"` (a collision), then `"BBB111"`,
then `"BBB111"` again (a collision), then `"CCC222"`. -/
def demo_cands : Nat → String :=
  fun n => ["AAAAAA", "BBB111", "BBB111", "CCC222"].getD n "DDD333"

/-- Instantiation of `code_commit_nodup`: committing two codes against
the store `["AAAAAA"]` with the colliding stream `demo_cands` yields
the pairwise-distinct store `["AAAAAA", "BBB111", "CCC222"]`. -/
theorem code_commit_nodup_witness :
    (["AAAAAA", "BBB111", "CCC222"] : List String).Nodup :=
  code_commit_nodup demo_cands 5 2 ["AAAAAA"] 0 ["AAAAAA", "BBB111", "CCC222"]
    (by decide) (by decide)

/-- A stored snapshot for `bob` under share code `"AAAAAAAA"`. -/
def snapBob : Snapshot :=
  mk_snapshot "bob" "2026-10-12T09:00:00" "AAAAAAAA" [] [] [] ⟨2026, 10, 12⟩

/-- A later snapshot for `alice` whose `code8()` draw collides with
`"AAAAAAAA"` — the snapshot handler draws the code once and never
checks it against the stored codes. -/
def snapAlice : Snapshot :=
  mk_snapshot "alice" "2026-10-12T10:00:00" "AAAAAAAA" [] [] [] ⟨2026, 10, 12⟩

/-- Counterexample to C2 as stated for the share-code namespace:
snapshot creation commits its freshly drawn code without any
regeneration-on-collision, so a colliding draw stores a share code
equal to one already stored, and the stored codes are not pairwise
distinct. -/
theorem share_code_commit_collision :
    (create_snapshot [] snapBob).map (fun p => p.2.share_code) = ["AAAAAAAA"]
    ∧ (create_snapshot (create_snapshot [] snapBob) snapAlice).map (fun p => p.2.share_code)
        = ["AAAAAAAA", "AAAAAAAA"]
    ∧ ¬ ((create_snapshot (create_snapshot [] snapBob) snapAlice).map
          (fun p => p.2.share_code)).Nodup := by
  refine ⟨by decide, by decide, by decide⟩

/-! ## C3 -/

/-- C3 (amended): `add_child_to_family` does not fail for an unknown
family code — it implicitly creates the family under that code with the
default name `"Family"`, links the child with the first palette color,
and returns success; the only failing case is a code that is empty
after stripping, which leaves the store unchanged. -/
theorem link_child_autocreate (rand : String) (store : FamStore) (code user : String)
    (hst : pyStripStr code = code) (hne : code ≠ "")
    (habs : lookupFam store code = none) :
    add_child_to_family rand store code user
      = (true, insertFam store code
          { family_name := "Family",
            children := [{ username := clean_username user, color := "#2E8B57" }] })
    ∧ ∀ (r₂ : String) (st₂ : FamStore) (c₂ u₂ : String), pyStripStr c₂ = "" →
        add_child_to_family r₂ st₂ c₂ u₂ = (false, st₂) := by
  constructor
  · have hbe : (code == "") = false := by simpa using hne
    simp only [add_child_to_family, hst, hbe, Bool.false_eq_true, if_false, lookupFam] at *
    rw [habs]
    rfl
  · intro r₂ st₂ c₂ u₂ h₂
    simp [add_child_to_family, h₂]

/-- Instantiation of `link_child_autocreate`: linking `"Bob"` under the
unknown code `"ABC"` auto-creates the family; the empty code fails. -/
theorem link_child_autocreate_witness :
    add_child_to_family "#FFFFFF" [] "ABC" "Bob"
      = (true, [("ABC",
          { family_name := "Family",
            children := [{ username := "bob", color := "#2E8B57" }] })])
    ∧ add_child_to_family "#FFFFFF" [] "   " "Bob" = (false, []) := by
  have h := link_child_autocreate "#FFFFFF" [] "ABC" "Bob" (by decide) (by decide) rfl
  exact ⟨h.1, h.2 "#FFFFFF" [] "   " "Bob" (by decide)⟩

/-- Counterexample to C3 as stated: with the code `"ABC"` absent from
the (empty) families store, `add_child_to_family` returns success and a
changed store — it neither fails with NotFound nor leaves the store
unchanged, and no separate ensure-family call exists or is required. -/
theorem link_child_notfound_counterexample :
    lookupFam [] "ABC" = none
    ∧ add_child_to_family "#FFFFFF" [] "ABC" "Bob"
        = (true, [("ABC",
            { family_name := "Family",
              children := [{ username := "bob", color := "#2E8B57" }] })])
    ∧ (add_child_to_family "#FFFFFF" [] "ABC" "Bob").1 ≠ false
    ∧ (add_child_to_family "#FFFFFF" [] "ABC" "Bob").2 ≠ [] := by
  refine ⟨rfl, by decide, by decide, by decide⟩

/-! ## C8 -/

lemma putShared_fresh (k : String) (v : Snapshot) :
    ∀ store : SharedStore, k ∉ store.map (fun p => p.1) →
      putShared store k v = store ++ [(k, v)] := by
  intro store
  induction store with
  | nil => intro _; rfl
  | cons hd tl ih =>
    intro h
    obtain ⟨k₀, v₀⟩ := hd
    simp only [List.map_cons, List.mem_cons] at h
    push_neg at h
    have hk : (k₀ == k) = false := by simpa using (Ne.symm h.1)
    simp [putShared, hk, ih h.2]

lemma find_putShared (c : String) (v : Snapshot) (hv : v.share_code = c) (k : String) :
    ∀ store : SharedStore, (∀ p ∈ store, p.2.share_code ≠ c) →
      (putShared store k v).find? (fun p => p.2.share_code == c) = some (k, v) := by
  intro store
  induction store with
  | nil =>
    intro _
    simp [putShared, List.find?_cons, hv]
  | cons hd tl ih =>
    intro h
    obtain ⟨k₀, v₀⟩ := hd
    by_cases hk : (k₀ == k) = true
    · simp [putShared, hk, List.find?_cons, hv]
    · have hk₂ : (k₀ == k) = false := by simpa using hk
      have h₀ : (v₀.share_code == c) = false := by
        simpa using h (k₀, v₀) (List.mem_cons_self _ _)
      simp [putShared, hk₂, List.find?_cons, h₀,
        ih (fun p hp => h p (List.mem_cons_of_mem _ hp))]

/-- C8: snapshot creation stores the document (identity, timestamp,
verbatim log copies, weekly totals computed at creation) under the
generated share code's file; resolving that code returns exactly that
document, keeps returning it after a further snapshot (with a fresh
code and file name) is created, the new snapshot's code resolves to the
new document, and a code carried by no stored snapshot resolves to
NotFound. -/
theorem snapshot_resolution_stable (store : SharedStore) (snap snap₂ : Snapshot) (bad : String)
    (hc₁ : ∀ p ∈ store, p.2.share_code ≠ snap.share_code)
    (hs₁ : pyStripStr snap.share_code = snap.share_code)
    (hn₁ : snap.share_code ≠ "")
    (hs₂ : pyStripStr snap₂.share_code = snap₂.share_code)
    (hn₂ : snap₂.share_code ≠ "")
    (hf₂ : (snap₂.username ++ "_snapshot_" ++ snap₂.share_code ++ ".json")
        ∉ (create_snapshot store snap).map (fun p => p.1))
    (hc₂ : ∀ p ∈ create_snapshot store snap, p.2.share_code ≠ snap₂.share_code)
    (hbad : ∀ p ∈ create_snapshot store snap, p.2.share_code ≠ pyStripStr bad) :
    resolve_snapshot (create_snapshot store snap) snap.share_code = some snap
    ∧ resolve_snapshot (create_snapshot (create_snapshot store snap) snap₂) snap.share_code
        = some snap
    ∧ resolve_snapshot (create_snapshot (create_snapshot store snap) snap₂) snap₂.share_code
        = some snap₂
    ∧ resolve_snapshot (create_snapshot store snap) bad = none := by
  have hne₁ : (pyStripStr snap.share_code == "") = false := by
    rw [hs₁]; simpa using hn₁
  have hne₂ : (pyStripStr snap₂.share_code == "") = false := by
    rw [hs₂]; simpa using hn₂
  have hfind₁ : (create_snapshot store snap).find?
      (fun p => p.2.share_code == pyStripStr snap.share_code)
      = some (snap.username ++ "_snapshot_" ++ snap.share_code ++ ".json", snap) := by
    rw [hs₁]
    exact find_putShared snap.share_code snap rfl _ store hc₁
  have happ : create_snapshot (create_snapshot store snap) snap₂
      = create_snapshot store snap
        ++ [(snap₂.username ++ "_snapshot_" ++ snap₂.share_code ++ ".json", snap₂)] :=
    putShared_fresh _ snap₂ (create_snapshot store snap) hf₂
  refine ⟨?_, ?_, ?_, ?_⟩
  · simp [resolve_snapshot, hne₁, hfind₁]
  · simp [resolve_snapshot, hne₁, happ, List.find?_append, hfind₁]
  · have hfind₂ : (create_snapshot (create_snapshot store snap) snap₂).find?
        (fun p => p.2.share_code == pyStripStr snap₂.share_code)
        = some (snap₂.username ++ "_snapshot_" ++ snap₂.share_code ++ ".json", snap₂) := by
      rw [hs₂]
      exact find_putShared snap₂.share_code snap₂ rfl _ (create_snapshot store snap) hc₂
    simp [resolve_snapshot, hne₂, hfind₂]
  · by_cases hb : (pyStripStr bad == "") = true
    · simp [resolve_snapshot, hb]
    · have hb₂ : (pyStripStr bad == "") = false := by simpa using hb
      have hfn : (create_snapshot store snap).find?
          (fun p => p.2.share_code == pyStripStr bad) = none :=
        List.find?_eq_none.mpr (fun p hp => by simpa using hbad p hp)
      simp [resolve_snapshot, hb₂, hfn]

/-- A later snapshot for `cara` under the distinct code `"ZZ99YY88"`. -/
def snapCara : Snapshot :=
  mk_snapshot "cara" "2026-10-12T11:00:00" "ZZ99YY88" [⟨"2026-10-12", 30⟩] [] [] ⟨2026, 10, 12⟩

/-- Instantiation of `snapshot_resolution_stable`: `bob`'s snapshot
stays resolvable (identically) after `cara` shares hers, and
`"WRONGCOD"` resolves to nothing. -/
theorem snapshot_resolution_stable_witness :
    resolve_snapshot (create_snapshot [] snapBob) "AAAAAAAA" = some snapBob
    ∧ resolve_snapshot (create_snapshot (create_snapshot [] snapBob) snapCara) "AAAAAAAA"
        = some snapBob
    ∧ resolve_snapshot (create_snapshot (create_snapshot [] snapBob) snapCara) "ZZ99YY88"
        = some snapCara
    ∧ resolve_snapshot (create_snapshot [] snapBob) "WRONGCOD" = none :=
  snapshot_resolution_stable [] snapBob snapCara "WRONGCOD"
    (by decide) (by decide) (by decide) (by decide) (by decide)
    (by decide) (by decide) (by decide)

/-! ## C7 -/

lemma palette_nodup : ATHLETE_COLORS.Nodup := by decide

lemma palette_length : ATHLETE_COLORS.length = 10 := by decide

lemma palette_nonempty_colors : ∀ c ∈ ATHLETE_COLORS, (c == "") = false := by decide

lemma palette_find_take : ∀ k, k < 10 →
    ATHLETE_COLORS.find? (fun c => !((ATHLETE_COLORS.take k).contains c))
      = ATHLETE_COLORS[k]? := by decide

lemma palette_find_full :
    ATHLETE_COLORS.find? (fun c => !(ATHLETE_COLORS.contains c)) = none := by decide

lemma lookup_insertFam (c : String) (f : Family) :
    ∀ st : FamStore, lookupFam (insertFam st c f) c = some f := by
  intro st
  induction st with
  | nil => simp [insertFam, lookupFam, List.lookup]
  | cons hd tl ih =>
    obtain ⟨c₀, f₀⟩ := hd
    by_cases hc : c₀ = c
    · simp [insertFam, hc, lookupFam, List.lookup]
    · have h₁ : (c₀ == c) = false := by simpa using hc
      have h₂ : (c == c₀) = false := by simpa using (Ne.symm hc)
      simpa [insertFam, h₁, h₂, lookupFam, List.lookup] using ih

lemma add_child_any_eq_false {fam : Family} {u : String}
    (hnotin : clean_username u ∉ fam.children.map (fun c => c.username)) :
    fam.children.any (fun c => c.username == clean_username u) = false := by
  rw [List.any_eq_false]
  intro c hc
  simp only [beq_iff_eq]
  exact fun he => hnotin (List.mem_map.mpr ⟨c, hc, he⟩)

lemma add_child_filter_colors {fam : Family}
    (hsub : ∀ c ∈ fam.children, c.color ∈ ATHLETE_COLORS) :
    fam.children.filter (fun c => c.color != "") = fam.children := by
  apply List.filter_eq_self.mpr
  intro c hc
  have h := palette_nonempty_colors c.color (hsub c hc)
  simpa using h

lemma add_child_step (rand : String) (st : FamStore) (code u : String) (fam : Family)
    (hst : pyStripStr code = code) (hne : code ≠ "")
    (hlk : (lookupFam st code).getD ⟨"Family", []⟩ = fam)
    (hnotin : clean_username u ∉ fam.children.map (fun c => c.username))
    (hcol : fam.children.map (fun c => c.color) = ATHLETE_COLORS.take fam.children.length)
    (hlen : fam.children.length < 10) :
    (add_child_to_family rand st code u).2
      = insertFam st code
          { fam with children := fam.children ++
              [{ username := clean_username u,
                 color := (ATHLETE_COLORS[fam.children.length]?).getD rand }] } := by
  have hbe : (code == "") = false := by simpa using hne
  have hany := add_child_any_eq_false hnotin
  have hsub : ∀ c ∈ fam.children, c.color ∈ ATHLETE_COLORS := by
    intro c hc
    have hmem : c.color ∈ ATHLETE_COLORS.take fam.children.length := by
      rw [← hcol]
      exact List.mem_map_of_mem _ hc
    exact List.take_subset _ _ hmem
  have hfil := add_child_filter_colors hsub
  have hcolr :
      (ATHLETE_COLORS.find?
          (fun c => !((ATHLETE_COLORS.take fam.children.length).contains c))).getD rand
        = (ATHLETE_COLORS[fam.children.length]?).getD rand := by
    rw [palette_find_take _ hlen]
  simp only [add_child_to_family, hst, hbe, Bool.false_eq_true, if_false, hlk, hany, hfil,
    hcol, hcolr]

lemma add_child_step_full (rand : String) (st : FamStore) (code u : String) (fam : Family)
    (hst : pyStripStr code = code) (hne : code ≠ "")
    (hlk : (lookupFam st code).getD ⟨"Family", []⟩ = fam)
    (hnotin : clean_username u ∉ fam.children.map (fun c => c.username))
    (hcol : fam.children.map (fun c => c.color) = ATHLETE_COLORS) :
    (add_child_to_family rand st code u).2
      = insertFam st code
          { fam with children := fam.children ++
              [{ username := clean_username u, color := rand }] } := by
  have hbe : (code == "") = false := by simpa using hne
  have hany := add_child_any_eq_false hnotin
  have hsub : ∀ c ∈ fam.children, c.color ∈ ATHLETE_COLORS := by
    intro c hc
    rw [← hcol]
    exact List.mem_map_of_mem _ hc
  have hfil := add_child_filter_colors hsub
  have hcolr :
      (ATHLETE_COLORS.find? (fun c => !(ATHLETE_COLORS.contains c))).getD rand = rand := by
    rw [palette_find_full]
    rfl
  simp only [add_child_to_family, hst, hbe, Bool.false_eq_true, if_false, hlk, hany, hfil,
    hcol, hcolr]

lemma link_children_spec (rnd : Nat → String) (code : String)
    (hst : pyStripStr code = code) (hne : code ≠ "") :
    ∀ (us : List String) (i : Nat) (st : FamStore) (fam : Family),
      (lookupFam st code).getD ⟨"Family", []⟩ = fam →
      (fam.children.map (fun c => c.username) ++ us.map clean_username).Nodup →
      fam.children.map (fun c => c.color) = ATHLETE_COLORS.take fam.children.length →
      fam.children.length + us.length ≤ 10 →
      ∃ fam₂ : Family,
        (lookupFam (link_children rnd code us i st) code).getD ⟨"Family", []⟩ = fam₂
        ∧ fam₂.family_name = fam.family_name
        ∧ fam₂.children.map (fun c => c.username)
            = fam.children.map (fun c => c.username) ++ us.map clean_username
        ∧ fam₂.children.map (fun c => c.color)
            = ATHLETE_COLORS.take (fam.children.length + us.length) := by
  intro us
  induction us with
  | nil =>
    intro i st fam hlk hnd hcol _
    exact ⟨fam, by simpa [link_children] using hlk, rfl, by simp, by simpa using hcol⟩
  | cons u us ih =>
    intro i st fam hlk hnd hcol hlen
    have hnotin : clean_username u ∉ fam.children.map (fun c => c.username) := by
      intro hmem
      exact (List.nodup_append.mp hnd).2.2 hmem (List.mem_cons_self _ _)
    have hlen₁ : fam.children.length < 10 := by
      simp only [List.length_cons] at hlen
      omega
    obtain ⟨nc, hnc⟩ : ∃ nc : Child,
        nc = { username := clean_username u,
               color := (ATHLETE_COLORS[fam.children.length]?).getD (rnd i) } := ⟨_, rfl⟩
    obtain ⟨fam₁, hfam₁⟩ : ∃ fam₁ : Family,
        fam₁ = { fam with children := fam.children ++ [nc] } := ⟨_, rfl⟩
    have hstep := add_child_step (rnd i) st code u fam hst hne hlk hnotin hcol hlen₁
    rw [← hnc, ← hfam₁] at hstep
    have hlk₂ : (lookupFam (add_child_to_family (rnd i) st code u).2 code).getD ⟨"Family", []⟩
        = fam₁ := by
      rw [hstep, lookup_insertFam]
      rfl
    have husr : fam₁.children.map (fun c => c.username)
        = fam.children.map (fun c => c.username) ++ [clean_username u] := by
      rw [hfam₁, hnc]
      simp
    have hchl : fam₁.children.length = fam.children.length + 1 := by
      rw [hfam₁]
      simp
    have hcolor : fam₁.children.map (fun c => c.color)
        = ATHLETE_COLORS.take (fam.children.length + 1) := by
      rw [hfam₁]
      simp only [List.map_append, hcol]
      rw [List.take_succ]
      congr 1
      have hk : fam.children.length < ATHLETE_COLORS.length := by
        rw [palette_length]
        exact hlen₁
      rw [hnc]
      simp only [List.map_cons, List.map_nil]
      rw [List.getElem?_eq_getElem hk]
      rfl
    have hnd₂ : (fam₁.children.map (fun c => c.username) ++ us.map clean_username).Nodup := by
      rw [husr]
      simpa [List.append_assoc] using hnd
    have hcol₂ : fam₁.children.map (fun c => c.color)
        = ATHLETE_COLORS.take fam₁.children.length := by
      rw [hcolor, hchl]
    have hlen₂ : fam₁.children.length + us.length ≤ 10 := by
      rw [hchl]
      simp only [List.length_cons] at hlen
      omega
    obtain ⟨fam₂, h₁, h₂, h₃, h₄⟩ :=
      ih (i + 1) (add_child_to_family (rnd i) st code u).2 fam₁ hlk₂ hnd₂ hcol₂ hlen₂
    refine ⟨fam₂, ?_, ?_, ?_, ?_⟩
    · exact h₁
    · rw [h₂, hfam₁]
    · rw [h₃, husr]
      simp [List.append_assoc]
    · rw [h₄, hchl]
      congr 1
      simp only [List.length_cons]
      omega

lemma palette_take_ten : ATHLETE_COLORS.take 10 = ATHLETE_COLORS := by decide

/-- C7: linking `n ≤ 10` children with pairwise-distinct canonical
usernames to an empty family assigns exactly the first `n` palette
colors, in palette order — in particular the children's colors are
pairwise distinct while the palette is not exhausted — and once all 10
palette colors are used, the next child receives the random fallback
color (which may repeat an existing one). -/
theorem family_colors_distinct (rnd : Nat → String) (code : String) (us : List String)
    (hst : pyStripStr code = code) (hne : code ≠ "")
    (hnd : (us.map clean_username).Nodup) (hlen : us.length ≤ 10) :
    ((lookupFam (link_children rnd code us 0 []) code).getD ⟨"Family", []⟩).children.map
        (fun c => c.color)
      = ATHLETE_COLORS.take us.length
    ∧ (((lookupFam (link_children rnd code us 0 []) code).getD ⟨"Family", []⟩).children.map
        (fun c => c.color)).Nodup
    ∧ (us.length = 10 → ∀ u r, clean_username u ∉ us.map clean_username →
        ((lookupFam (add_child_to_family r (link_children rnd code us 0 []) code u).2 code).getD
            ⟨"Family", []⟩).children.map (fun c => c.color)
          = ATHLETE_COLORS ++ [r]) := by
  obtain ⟨fam₂, h₁, h₂, h₃, h₄⟩ :=
    link_children_spec rnd code hst hne us 0 [] ⟨"Family", []⟩ rfl (by simpa using hnd)
      (by simp) (by simpa using hlen)
  have hcols : fam₂.children.map (fun c => c.color) = ATHLETE_COLORS.take us.length := by
    rw [h₄]
    simp
  refine ⟨by rw [h₁]; exact hcols, ?_, ?_⟩
  · rw [h₁, hcols]
    exact palette_nodup.sublist (List.take_sublist _ _)
  · intro h10 u r hnot
    have hfull : fam₂.children.map (fun c => c.color) = ATHLETE_COLORS := by
      rw [hcols, h10]
      exact palette_take_ten
    have hnotin₂ : clean_username u ∉ fam₂.children.map (fun c => c.username) := by
      rw [h₃]
      simpa using hnot
    have hstep := add_child_step_full r (link_children rnd code us 0 []) code u fam₂
      hst hne h₁ hnotin₂ hfull
    rw [hstep, lookup_insertFam]
    show ((fam₂.children ++ [({ username := clean_username u, color := r } : Child)]).map
        (fun c => c.color)) = ATHLETE_COLORS ++ [r]
    rw [List.map_append, hfull]
    rfl

/-- A concrete RNG stream for the random-fallback argument. -/
def demo_rnd : Nat → String := fun _ => "#123456"

/-- Instantiation of `family_colors_distinct`: 10 distinct children get
the 10 palette colors (pairwise distinct); an 11th child gets the
random fallback `"#1E90FF"`, a repeat. -/
theorem family_colors_distinct_witness :
    ((lookupFam (link_children demo_rnd "FAM001"
          ["a0", "a1", "a2", "a3", "a4", "a5", "a6", "a7", "a8", "a9"] 0 []) "FAM001").getD
        ⟨"Family", []⟩).children.map (fun c => c.color)
      = ATHLETE_COLORS.take 10
    ∧ (((lookupFam (link_children demo_rnd "FAM001"
          ["a0", "a1", "a2", "a3", "a4", "a5", "a6", "a7", "a8", "a9"] 0 []) "FAM001").getD
        ⟨"Family", []⟩).children.map (fun c => c.color)).Nodup
    ∧ ((lookupFam (add_child_to_family "#1E90FF"
            (link_children demo_rnd "FAM001"
              ["a0", "a1", "a2", "a3", "a4", "a5", "a6", "a7", "a8", "a9"] 0 [])
            "FAM001" "a10").2 "FAM001").getD
          ⟨"Family", []⟩).children.map (fun c => c.color)
        = ATHLETE_COLORS ++ ["#1E90FF"] := by
  have h := family_colors_distinct demo_rnd "FAM001"
    ["a0", "a1", "a2", "a3", "a4", "a5", "a6", "a7", "a8", "a9"]
    (by decide) (by decide) (by decide) (by decide)
  exact ⟨h.1, h.2.1, h.2.2 rfl "a10" "#1E90FF" (by decide)⟩

